import Mathlib

/-!
Verification of the boids flocking simulation in boids.py.

Python floats are modelled as real numbers and pygame.Vector2 as pairs of
reals, so the development reasons about the idealized real-arithmetic
behavior of the code. Agent identity inside a flock is positional: the
Python list holds pairwise distinct objects and the test b != boid is
object identity, so the candidate pool for an agent consists of all other
entries of the list, already-updated entries included (the update loop
mutates the list elements in place).

The module-level constants of boids.py are gathered into a Config record
(width, height, max speed, view radius, field of view angle, wind force,
and the three rule-weight literals 0.05, 0.05, 0.01 that appear inline in
update_boids); defaultConfig is exactly the configuration of the source
file. pygame facts used: Vector2.length is the Euclidean norm,
Vector2.scale_to_length multiplies by value / length, Vector2.distance_to
is the Euclidean distance, and Vector2.angle_to(self, other) returns
degrees of (atan2 other.y other.x - atan2 self.y self.x), the raw atan2
difference, which is not normalized into (-180, 180].
-/

namespace Boids

open scoped Classical

noncomputable section

abbrev Vec2 : Type := ℝ × ℝ

/-- pygame Vector2.length: the Euclidean norm sqrt (x * x + y * y). -/
def length (v : Vec2) : ℝ := Real.sqrt (v.1 ^ 2 + v.2 ^ 2)

/-- pygame Vector2.scale_to_length: multiply the vector by value / length. -/
def scale_to_length (v : Vec2) (value : ℝ) : Vec2 := (value / length v) • v

/-- pygame componentwise division of a vector by a scalar. -/
def sdiv (v : Vec2) (c : ℝ) : Vec2 := (v.1 / c, v.2 / c)

/-- An agent: position and velocity, as in class Boid of boids.py. -/
structure Boid where
  position : Vec2
  velocity : Vec2

instance : Inhabited Boid := ⟨⟨(0, 0), (0, 0)⟩⟩

/-- Screen width constant of boids.py. -/
def WIDTH : ℝ := 800

/-- Screen height constant of boids.py. -/
def HEIGHT : ℝ := 600

/-- Maximum speed constant of boids.py. -/
def MAX_SPEED : ℝ := 4.0

/-- Interaction radius constant of boids.py. -/
def VIEW_RADIUS : ℝ := 50

/-- Field of view constant of boids.py, in degrees; -1 means omnidirectional. -/
def FOV_ANGLE : ℝ := 270

/-- Wind force constant of boids.py. -/
def WIND_FORCE : Vec2 := (0.1, 0.05)

/-- The simulation constants, as one record. -/
structure Config where
  width : ℝ
  height : ℝ
  maxSpeed : ℝ
  viewRadius : ℝ
  fovAngle : ℝ
  windForce : Vec2
  sepWeight : ℝ
  alignWeight : ℝ
  cohWeight : ℝ

/-- The configuration of boids.py itself: the module constants together with
    the three inline rule weights 0.05 (separation), 0.05 (alignment) and
    0.01 (cohesion) of update_boids. -/
def defaultConfig : Config :=
  { width := WIDTH, height := HEIGHT, maxSpeed := MAX_SPEED,
    viewRadius := VIEW_RADIUS, fovAngle := FOV_ANGLE, windForce := WIND_FORCE,
    sepWeight := 0.05, alignWeight := 0.05, cohWeight := 0.01 }

/-- Euclidean distance between two boids (function distance of boids.py,
    pygame Vector2.distance_to). -/
def distance (b1 b2 : Boid) : ℝ := length (b2.position - b1.position)

/-- View a 2D vector as a complex number, so Complex.arg is atan2 y x. -/
def toC (v : Vec2) : ℂ := ⟨v.1, v.2⟩

/-- pygame Vector2.angle_to: degrees of the raw difference
    atan2 w.y w.x - atan2 v.y v.x. The result lies in (-360, 360) and is
    not wrapped into (-180, 180]. -/
def angle_to (v w : Vec2) : ℝ :=
  (Complex.arg (toC w) - Complex.arg (toC v)) * 180 / Real.pi

/-- Function within_fov of boids.py: unconditionally true for the
    omnidirectional sentinel -1, otherwise the absolute value of the
    angle_to result is compared against half the field of view. -/
def within_fov (cfg : Config) (b1 b2 : Boid) : Prop :=
  if cfg.fovAngle = -1 then True
  else |angle_to b1.velocity (b2.position - b1.position)| ≤ cfg.fovAngle / 2

/-- Neighbor discovery (line 57 of boids.py). The pool argument holds the
    other boids of the flock in their current states; the identity test
    b != boid of the source is realized by excluding the boid itself from
    the pool. -/
def neighborsOf (cfg : Config) (pool : List Boid) (boid : Boid) : List Boid :=
  pool.filter fun b =>
    decide (distance boid b < cfg.viewRadius ∧ within_fov cfg boid b)

/-- Separation accumulation (lines 66-70): for each neighbor strictly closer
    than viewRadius / 2 subtract (neighbor.position - boid.position) from the
    accumulator, then multiply the sum by the separation weight. -/
def avoidVector (cfg : Config) (boid : Boid) (ns : List Boid) : Vec2 :=
  cfg.sepWeight •
    ns.foldl
      (fun acc n =>
        if distance boid n < cfg.viewRadius / 2
        then acc - (n.position - boid.position) else acc)
      0

/-- Alignment accumulation (lines 72-76): sum the neighbor velocities, divide
    by the number of neighbors, multiply by the alignment weight. -/
def matchVelocity (cfg : Config) (ns : List Boid) : Vec2 :=
  cfg.alignWeight •
    sdiv (ns.foldl (fun acc n => acc + n.velocity) 0) (ns.length : ℝ)

/-- Cohesion accumulation (lines 78-83): center of mass of the neighbors
    minus own position, times the cohesion weight. -/
def cohesionVector (cfg : Config) (boid : Boid) (ns : List Boid) : Vec2 :=
  cfg.cohWeight •
    (sdiv (ns.foldl (fun acc n => acc + n.position) 0) (ns.length : ℝ)
      - boid.position)

/-- Value of avoid_vector after lines 59-70: zero when there are no neighbors
    or when the rule identifier is absent from the rule order. -/
def avoidOf (cfg : Config) (ord : List String) (pool : List Boid)
    (boid : Boid) : Vec2 :=
  if neighborsOf cfg pool boid = [] then 0
  else if "collision_avoidance" ∈ ord
  then avoidVector cfg boid (neighborsOf cfg pool boid) else 0

/-- Value of match_velocity after lines 59-76. -/
def matchOf (cfg : Config) (ord : List String) (pool : List Boid)
    (boid : Boid) : Vec2 :=
  if neighborsOf cfg pool boid = [] then 0
  else if "velocity_matching" ∈ ord
  then matchVelocity cfg (neighborsOf cfg pool boid) else 0

/-- Value of cohesion_vector after lines 59-83. -/
def cohesionOf (cfg : Config) (ord : List String) (pool : List Boid)
    (boid : Boid) : Vec2 :=
  if neighborsOf cfg pool boid = [] then 0
  else if "flock_centering" ∈ ord
  then cohesionVector cfg boid (neighborsOf cfg pool boid) else 0

/-- Force application loop (lines 86-92): walk the rule order and add the
    matching force per occurrence; unrecognized identifiers add nothing. -/
def accumulate_rules (ord : List String) (v a m c : Vec2) : Vec2 :=
  ord.foldl
    (fun vel rule =>
      if rule = "collision_avoidance" then vel + a
      else if rule = "velocity_matching" then vel + m
      else if rule = "flock_centering" then vel + c
      else vel)
    v

/-- Speed limiting (lines 97-99 of boids.py). -/
def limit_speed (maxSpeed : ℝ) (v : Vec2) : Vec2 :=
  if length v > maxSpeed then scale_to_length v maxSpeed else v

/-- Edge wrapping, method Boid.edges (lines 19-28 of boids.py). -/
def edges (cfg : Config) (p : Vec2) : Vec2 :=
  ((if p.1 > cfg.width then 0 else if p.1 < 0 then cfg.width else p.1),
   (if p.2 > cfg.height then 0 else if p.2 < 0 then cfg.height else p.2))

/-- The velocity a boid ends the tick with: rule forces accumulated in rule
    order, wind added, speed clamped (lines 86-99). -/
def new_velocity (cfg : Config) (ord : List String) (pool : List Boid)
    (boid : Boid) : Vec2 :=
  limit_speed cfg.maxSpeed
    (accumulate_rules ord boid.velocity
        (avoidOf cfg ord pool boid) (matchOf cfg ord pool boid)
        (cohesionOf cfg ord pool boid)
      + cfg.windForce)

/-- One iteration of the for-loop body of update_boids (lines 56-103): new
    velocity, then move (position += velocity), then edge wrap. -/
def update_one (cfg : Config) (ord : List String) (pool : List Boid)
    (boid : Boid) : Boid :=
  { position := edges cfg (boid.position + new_velocity cfg ord pool boid),
    velocity := new_velocity cfg ord pool boid }

/-- Sequential in-place loop of update_boids: the boid being updated sees the
    already updated prefix (done) and the untouched suffix (rest), exactly as
    the Python loop that mutates the shared list objects one by one. -/
def update_go (cfg : Config) (ord : List String) :
    List Boid → List Boid → List Boid
  | _, [] => []
  | done, boid :: rest =>
    update_one cfg ord (done ++ rest) boid ::
      update_go cfg ord (done ++ [update_one cfg ord (done ++ rest) boid]) rest

/-- Function update_boids of boids.py, returning the post-tick flock. -/
def update_boids (cfg : Config) (ord : List String) (boids : List Boid) :
    List Boid :=
  update_go cfg ord [] boids

/-- Modelled from the spec: section 5 requires snapshot semantics, where
    every agent is updated against the frozen pre-tick states of all other
    agents. The done list accumulates the agents already visited in their
    original, pre-tick states. -/
def snapshot_go (cfg : Config) (ord : List String) :
    List Boid → List Boid → List Boid
  | _, [] => []
  | done, boid :: rest =>
    update_one cfg ord (done ++ rest) boid ::
      snapshot_go cfg ord (done ++ [boid]) rest

/-- Modelled from the spec: the reference one-tick step in which neighbor
    discovery and force accumulation read only the pre-tick snapshot. -/
def update_boids_snapshot (cfg : Config) (ord : List String)
    (boids : List Boid) : List Boid :=
  snapshot_go cfg ord [] boids

/-- The full rule order of boids.py (list rule_orders, first entry). -/
def fullOrder : List String :=
  ["collision_avoidance", "velocity_matching", "flock_centering"]

/-- Configuration with the weight of the given rule forced to zero. -/
def zero_weight (r : String) (cfg : Config) : Config :=
  if r = "collision_avoidance" then { cfg with sepWeight := 0 }
  else if r = "velocity_matching" then { cfg with alignWeight := 0 }
  else if r = "flock_centering" then { cfg with cohWeight := 0 }
  else cfg

/-- Signed angle in degrees between v and w, wrapped into (-180, 180]: the
    complex argument of the direction quotient. This is the reference
    reading of the specification, which pins the field-of-view angle to the
    interval (-180, 180]; the code path angle_to does not wrap. -/
def angle_between (v w : Vec2) : ℝ :=
  Complex.arg (toC w * star (toC v)) * 180 / Real.pi

@[simp] theorem defaultConfig_width : defaultConfig.width = 800 := rfl

@[simp] theorem defaultConfig_height : defaultConfig.height = 600 := rfl

@[simp] theorem defaultConfig_maxSpeed : defaultConfig.maxSpeed = 4 := by
  norm_num [defaultConfig, MAX_SPEED]

@[simp] theorem defaultConfig_viewRadius : defaultConfig.viewRadius = 50 := rfl

@[simp] theorem defaultConfig_fovAngle : defaultConfig.fovAngle = 270 := rfl

@[simp] theorem defaultConfig_windForce :
    defaultConfig.windForce = ((0.1 : ℝ), (0.05 : ℝ)) := rfl

@[simp] theorem defaultConfig_sepWeight : defaultConfig.sepWeight = 0.05 := rfl

@[simp] theorem defaultConfig_alignWeight :
    defaultConfig.alignWeight = 0.05 := rfl

@[simp] theorem defaultConfig_cohWeight : defaultConfig.cohWeight = 0.01 := rfl

theorem length_nonneg (v : Vec2) : 0 ≤ length v := Real.sqrt_nonneg _

theorem length_le (v : Vec2) (c : ℝ) (hc : 0 ≤ c)
    (h : v.1 ^ 2 + v.2 ^ 2 ≤ c ^ 2) : length v ≤ c :=
  (Real.sqrt_le_left hc).mpr h

theorem length_lt (v : Vec2) (c : ℝ) (hc : 0 < c)
    (h : v.1 ^ 2 + v.2 ^ 2 < c ^ 2) : length v < c :=
  (Real.sqrt_lt' hc).mpr h

theorem length_smul (r : ℝ) (v : Vec2) : length (r • v) = |r| * length v := by
  unfold length
  have h1 : (r • v).1 = r * v.1 := rfl
  have h2 : (r • v).2 = r * v.2 := rfl
  rw [h1, h2, show (r * v.1) ^ 2 + (r * v.2) ^ 2 = r ^ 2 * (v.1 ^ 2 + v.2 ^ 2)
      from by ring,
    Real.sqrt_mul (sq_nonneg r), Real.sqrt_sq_eq_abs]

theorem limit_speed_of_le {m : ℝ} {v : Vec2} (h : length v ≤ m) :
    limit_speed m v = v :=
  if_neg (not_lt.mpr h)

theorem limit_speed_length_le (m : ℝ) (v : Vec2) (hm : 0 ≤ m) :
    length (limit_speed m v) ≤ m := by
  unfold limit_speed
  by_cases h : length v > m
  · rw [if_pos h]
    unfold scale_to_length
    rw [length_smul]
    have hv : 0 < length v := lt_of_le_of_lt hm h
    rw [abs_of_nonneg (div_nonneg hm hv.le), div_mul_cancel₀ _ (ne_of_gt hv)]
  · rw [if_neg h]
    exact not_lt.mp h

theorem edges_box (cfg : Config) (hw : 0 ≤ cfg.width) (hh : 0 ≤ cfg.height)
    (p : Vec2) :
    0 ≤ (edges cfg p).1 ∧ (edges cfg p).1 ≤ cfg.width ∧
      0 ≤ (edges cfg p).2 ∧ (edges cfg p).2 ≤ cfg.height := by
  unfold edges
  constructor
  · show 0 ≤ if p.1 > cfg.width then 0 else if p.1 < 0 then cfg.width else p.1
    split_ifs with h1 h2
    · exact le_refl 0
    · exact hw
    · exact not_lt.mp h2
  constructor
  · show (if p.1 > cfg.width then 0 else if p.1 < 0 then cfg.width else p.1)
      ≤ cfg.width
    split_ifs with h1 h2
    · exact hw
    · exact le_refl _
    · exact not_lt.mp h1
  constructor
  · show 0 ≤ if p.2 > cfg.height then 0 else if p.2 < 0 then cfg.height else p.2
    split_ifs with h1 h2
    · exact le_refl 0
    · exact hh
    · exact not_lt.mp h2
  · show (if p.2 > cfg.height then 0 else if p.2 < 0 then cfg.height else p.2)
      ≤ cfg.height
    split_ifs with h1 h2
    · exact hh
    · exact le_refl _
    · exact not_lt.mp h1

theorem edges_of_mem_box (cfg : Config) (p : Vec2)
    (h1 : ¬ p.1 > cfg.width) (h2 : ¬ p.1 < 0)
    (h3 : ¬ p.2 > cfg.height) (h4 : ¬ p.2 < 0) : edges cfg p = p := by
  unfold edges
  rw [if_neg h1, if_neg h2, if_neg h3, if_neg h4]

theorem update_one_velocity (cfg : Config) (ord : List String)
    (pool : List Boid) (b : Boid) :
    (update_one cfg ord pool b).velocity = new_velocity cfg ord pool b := rfl

theorem update_one_position (cfg : Config) (ord : List String)
    (pool : List Boid) (b : Boid) :
    (update_one cfg ord pool b).position
      = edges cfg (b.position + new_velocity cfg ord pool b) := rfl

theorem mem_update_go (cfg : Config) (ord : List String) :
    ∀ (rest done : List Boid) (b : Boid), b ∈ update_go cfg ord done rest →
      ∃ pool x, b = update_one cfg ord pool x := by
  intro rest
  induction rest with
  | nil => intro done b h; simp [update_go] at h
  | cons hd tl ih =>
    intro done b h
    simp only [update_go] at h
    rcases List.mem_cons.mp h with h1 | h2
    · exact ⟨done ++ tl, hd, h1⟩
    · exact ih _ b h2

theorem accumulate_rules_cons (r : String) (tl : List String)
    (v a m c : Vec2) :
    accumulate_rules (r :: tl) v a m c =
      accumulate_rules tl
        (if r = "collision_avoidance" then v + a
         else if r = "velocity_matching" then v + m
         else if r = "flock_centering" then v + c
         else v) a m c := rfl

theorem accumulate_rules_count (ord : List String) (v a m c : Vec2) :
    accumulate_rules ord v a m c =
      v + (List.count "collision_avoidance" ord) • a
        + (List.count "velocity_matching" ord) • m
        + (List.count "flock_centering" ord) • c := by
  induction ord generalizing v with
  | nil => simp [accumulate_rules]
  | cons r tl ih =>
    rw [accumulate_rules_cons]
    by_cases h1 : r = "collision_avoidance"
    · subst h1
      rw [if_pos rfl, ih, List.count_cons_self,
        List.count_cons_of_ne (by decide), List.count_cons_of_ne (by decide),
        succ_nsmul]
      abel
    · rw [if_neg h1]
      by_cases h2 : r = "velocity_matching"
      · subst h2
        rw [if_pos rfl, ih, List.count_cons_self,
          List.count_cons_of_ne (by decide),
          List.count_cons_of_ne (by decide), succ_nsmul]
        abel
      · rw [if_neg h2]
        by_cases h3 : r = "flock_centering"
        · subst h3
          rw [if_pos rfl, ih, List.count_cons_self,
            List.count_cons_of_ne (by decide),
            List.count_cons_of_ne (by decide), succ_nsmul]
          abel
        · rw [if_neg h3, ih, List.count_cons_of_ne (Ne.symm h1),
            List.count_cons_of_ne (Ne.symm h2),
            List.count_cons_of_ne (Ne.symm h3)]

theorem foldl_add_map {α : Type} (f : α → Vec2) :
    ∀ (l : List α) (acc : Vec2),
      l.foldl (fun a x => a + f x) acc = acc + (l.map f).sum := by
  intro l
  induction l with
  | nil => intro acc; simp
  | cons hd tl ih =>
    intro acc
    rw [List.foldl_cons, List.map_cons, List.sum_cons, ih, add_assoc]

theorem foldl_cond_sub (cfg : Config) (boid : Boid) :
    ∀ (ns : List Boid) (acc : Vec2),
      ns.foldl
          (fun acc n =>
            if distance boid n < cfg.viewRadius / 2
            then acc - (n.position - boid.position) else acc)
          acc
        = acc +
            ((ns.filter fun n =>
                decide (distance boid n < cfg.viewRadius / 2)).map
              (fun n => -(n.position - boid.position))).sum := by
  intro ns
  induction ns with
  | nil => intro acc; simp
  | cons hd tl ih =>
    intro acc
    rw [List.foldl_cons, List.filter_cons]
    by_cases h : distance boid hd < cfg.viewRadius / 2
    · rw [if_pos h, if_pos (decide_eq_true h), List.map_cons, List.sum_cons,
        ih]
      abel
    · rw [if_neg h, if_neg (by simpa using h), ih]

theorem sdiv_one (v : Vec2) : sdiv v 1 = v := by
  unfold sdiv
  simp

theorem update_one_no_neighbors (cfg : Config) (ord : List String)
    (pool : List Boid) (b : Boid) (hnb : neighborsOf cfg pool b = []) :
    update_one cfg ord pool b =
      ⟨edges cfg
          (b.position + limit_speed cfg.maxSpeed (b.velocity + cfg.windForce)),
        limit_speed cfg.maxSpeed (b.velocity + cfg.windForce)⟩ := by
  unfold update_one new_velocity avoidOf matchOf cohesionOf
  rw [hnb]
  simp [accumulate_rules_count]

theorem update_boids_single (cfg : Config) (ord : List String) (b : Boid) :
    update_boids cfg ord [b] =
      [⟨edges cfg
          (b.position + limit_speed cfg.maxSpeed (b.velocity + cfg.windForce)),
        limit_speed cfg.maxSpeed (b.velocity + cfg.windForce)⟩] := by
  unfold update_boids
  simp only [update_go, List.nil_append]
  rw [update_one_no_neighbors cfg ord [] b rfl]

theorem update_one_fc (cfg : Config) (n b : Boid)
    (hnb : neighborsOf cfg [n] b = [n]) :
    update_one cfg ["flock_centering"] [n] b =
      ⟨edges cfg
          (b.position + limit_speed cfg.maxSpeed
            (b.velocity + cfg.cohWeight • (n.position - b.position)
              + cfg.windForce)),
        limit_speed cfg.maxSpeed
          (b.velocity + cfg.cohWeight • (n.position - b.position)
            + cfg.windForce)⟩ := by
  have hcoh : cohesionOf cfg ["flock_centering"] [n] b
      = cfg.cohWeight • (n.position - b.position) := by
    unfold cohesionOf
    rw [hnb, if_neg (List.cons_ne_nil n []),
      if_pos (show ("flock_centering" : String) ∈ ["flock_centering"] from
        List.mem_cons_self _ _)]
    unfold cohesionVector
    simp [sdiv_one]
  unfold update_one new_velocity
  rw [accumulate_rules_count]
  rw [show List.count "collision_avoidance" ["flock_centering"] = 0 from by
      decide,
    show List.count "velocity_matching" ["flock_centering"] = 0 from by decide,
    show List.count "flock_centering" ["flock_centering"] = 1 from by decide,
    hcoh]
  simp

theorem update_go_congr (cfg1 cfg2 : Config) (ord1 ord2 : List String)
    (h : ∀ pool b, update_one cfg1 ord1 pool b = update_one cfg2 ord2 pool b) :
    ∀ (rest done : List Boid),
      update_go cfg1 ord1 done rest = update_go cfg2 ord2 done rest := by
  intro rest
  induction rest with
  | nil => intro done; simp [update_go]
  | cons hd tl ih =>
    intro done
    simp only [update_go]
    rw [h (done ++ tl) hd, ih (done ++ [update_one cfg2 ord2 (done ++ tl) hd])]

theorem update_go_length (cfg : Config) (ord : List String) :
    ∀ (rest done : List Boid),
      (update_go cfg ord done rest).length = rest.length := by
  intro rest
  induction rest with
  | nil => intro done; simp [update_go]
  | cons hd tl ih =>
    intro done
    simp only [update_go, List.length_cons, ih]

theorem update_one_perm (cfg : Config) {ord1 ord2 : List String}
    (h : ord1.Perm ord2) (pool : List Boid) (b : Boid) :
    update_one cfg ord1 pool b = update_one cfg ord2 pool b := by
  have hmem : ∀ s : String, s ∈ ord1 ↔ s ∈ ord2 := fun s => h.mem_iff
  have havoid : avoidOf cfg ord1 pool b = avoidOf cfg ord2 pool b := by
    unfold avoidOf
    simp only [hmem]
  have hmatch : matchOf cfg ord1 pool b = matchOf cfg ord2 pool b := by
    unfold matchOf
    simp only [hmem]
  have hcoh : cohesionOf cfg ord1 pool b = cohesionOf cfg ord2 pool b := by
    unfold cohesionOf
    simp only [hmem]
  unfold update_one new_velocity
  rw [accumulate_rules_count, accumulate_rules_count, havoid, hmatch, hcoh,
    h.count_eq, h.count_eq, h.count_eq]

theorem count_filter_keep {α : Type} [DecidableEq α] (p : α → Bool) (a : α)
    (hp : p a = true) :
    ∀ l : List α, List.count a (l.filter p) = List.count a l := by
  intro l
  induction l with
  | nil => rfl
  | cons hd tl ih =>
    rw [List.filter_cons]
    by_cases h : p hd = true
    · rw [if_pos h, List.count_cons, List.count_cons, ih]
    · have hne : a ≠ hd := fun he => h (he ▸ hp)
      rw [if_neg h, ih, List.count_cons_of_ne hne]

theorem mem_filter_known (ord : List String) (s : String)
    (hs : s ∈ fullOrder) :
    (s ∈ ord.filter fun r => decide (r ∈ fullOrder)) ↔ s ∈ ord := by
  rw [List.mem_filter]
  simp [hs]

theorem update_one_filter (cfg : Config) (ord : List String)
    (pool : List Boid) (b : Boid) :
    update_one cfg ord pool b
      = update_one cfg (ord.filter fun r => decide (r ∈ fullOrder)) pool b := by
  have hca : ("collision_avoidance" : String) ∈ fullOrder := by decide
  have hvm : ("velocity_matching" : String) ∈ fullOrder := by decide
  have hfc : ("flock_centering" : String) ∈ fullOrder := by decide
  have havoid : avoidOf cfg ord pool b
      = avoidOf cfg (ord.filter fun r => decide (r ∈ fullOrder)) pool b := by
    unfold avoidOf
    simp only [mem_filter_known ord _ hca]
  have hmatch : matchOf cfg ord pool b
      = matchOf cfg (ord.filter fun r => decide (r ∈ fullOrder)) pool b := by
    unfold matchOf
    simp only [mem_filter_known ord _ hvm]
  have hcoh : cohesionOf cfg ord pool b
      = cohesionOf cfg (ord.filter fun r => decide (r ∈ fullOrder)) pool b := by
    unfold cohesionOf
    simp only [mem_filter_known ord _ hfc]
  unfold update_one new_velocity
  rw [accumulate_rules_count, accumulate_rules_count, havoid, hmatch, hcoh,
    count_filter_keep _ _ (by simp [hca]) ord,
    count_filter_keep _ _ (by simp [hvm]) ord,
    count_filter_keep _ _ (by simp [hfc]) ord]

theorem update_one_erase_ca (cfg : Config) (pool : List Boid) (b : Boid) :
    update_one cfg (fullOrder.erase "collision_avoidance") pool b
      = update_one (zero_weight "collision_avoidance" cfg) fullOrder pool b := by
  have he : fullOrder.erase "collision_avoidance"
      = ["velocity_matching", "flock_centering"] := by decide
  have hzw : zero_weight "collision_avoidance" cfg
      = { cfg with sepWeight := 0 } := by
    unfold zero_weight
    rw [if_pos rfl]
  rw [he, hzw]
  have hnb : neighborsOf { cfg with sepWeight := 0 } pool b
      = neighborsOf cfg pool b := rfl
  have hA2 : avoidOf { cfg with sepWeight := 0 } fullOrder pool b = 0 := by
    unfold avoidOf
    rw [hnb]
    by_cases h1 : neighborsOf cfg pool b = []
    · rw [if_pos h1]
    · rw [if_neg h1,
        if_pos (show ("collision_avoidance" : String) ∈ fullOrder from by
          decide)]
      exact zero_smul _ _
  have hA1 : avoidOf cfg ["velocity_matching", "flock_centering"] pool b
      = 0 := by
    unfold avoidOf
    by_cases h1 : neighborsOf cfg pool b = []
    · rw [if_pos h1]
    · rw [if_neg h1,
        if_neg (show ¬ ("collision_avoidance" : String)
            ∈ ["velocity_matching", "flock_centering"] from by decide)]
  have hM : matchOf cfg ["velocity_matching", "flock_centering"] pool b
      = matchOf { cfg with sepWeight := 0 } fullOrder pool b := by
    unfold matchOf
    rw [hnb]
    by_cases h1 : neighborsOf cfg pool b = []
    · rw [if_pos h1, if_pos h1]
    · rw [if_neg h1, if_neg h1,
        if_pos (show ("velocity_matching" : String)
            ∈ ["velocity_matching", "flock_centering"] from by decide),
        if_pos (show ("velocity_matching" : String) ∈ fullOrder from by
          decide)]
      rfl
  have hC : cohesionOf cfg ["velocity_matching", "flock_centering"] pool b
      = cohesionOf { cfg with sepWeight := 0 } fullOrder pool b := by
    unfold cohesionOf
    rw [hnb]
    by_cases h1 : neighborsOf cfg pool b = []
    · rw [if_pos h1, if_pos h1]
    · rw [if_neg h1, if_neg h1,
        if_pos (show ("flock_centering" : String)
            ∈ ["velocity_matching", "flock_centering"] from by decide),
        if_pos (show ("flock_centering" : String) ∈ fullOrder from by decide)]
      rfl
  unfold update_one new_velocity
  rw [accumulate_rules_count, accumulate_rules_count, hA1, hA2, hM, hC,
    show List.count "collision_avoidance"
        ["velocity_matching", "flock_centering"] = 0 from by decide,
    show List.count "velocity_matching"
        ["velocity_matching", "flock_centering"] = 1 from by decide,
    show List.count "flock_centering"
        ["velocity_matching", "flock_centering"] = 1 from by decide,
    show List.count "collision_avoidance" fullOrder = 1 from by decide,
    show List.count "velocity_matching" fullOrder = 1 from by decide,
    show List.count "flock_centering" fullOrder = 1 from by decide]
  simp only [zero_nsmul, one_nsmul, add_zero, smul_zero]
  rfl

theorem update_one_erase_vm (cfg : Config) (pool : List Boid) (b : Boid) :
    update_one cfg (fullOrder.erase "velocity_matching") pool b
      = update_one (zero_weight "velocity_matching" cfg) fullOrder pool b := by
  have he : fullOrder.erase "velocity_matching"
      = ["collision_avoidance", "flock_centering"] := by decide
  have hzw : zero_weight "velocity_matching" cfg
      = { cfg with alignWeight := 0 } := by
    unfold zero_weight
    rw [if_neg (by decide), if_pos rfl]
  rw [he, hzw]
  have hnb : neighborsOf { cfg with alignWeight := 0 } pool b
      = neighborsOf cfg pool b := rfl
  have hM2 : matchOf { cfg with alignWeight := 0 } fullOrder pool b = 0 := by
    unfold matchOf
    rw [hnb]
    by_cases h1 : neighborsOf cfg pool b = []
    · rw [if_pos h1]
    · rw [if_neg h1,
        if_pos (show ("velocity_matching" : String) ∈ fullOrder from by
          decide)]
      exact zero_smul _ _
  have hM1 : matchOf cfg ["collision_avoidance", "flock_centering"] pool b
      = 0 := by
    unfold matchOf
    by_cases h1 : neighborsOf cfg pool b = []
    · rw [if_pos h1]
    · rw [if_neg h1,
        if_neg (show ¬ ("velocity_matching" : String)
            ∈ ["collision_avoidance", "flock_centering"] from by decide)]
  have hA : avoidOf cfg ["collision_avoidance", "flock_centering"] pool b
      = avoidOf { cfg with alignWeight := 0 } fullOrder pool b := by
    unfold avoidOf
    rw [hnb]
    by_cases h1 : neighborsOf cfg pool b = []
    · rw [if_pos h1, if_pos h1]
    · rw [if_neg h1, if_neg h1,
        if_pos (show ("collision_avoidance" : String)
            ∈ ["collision_avoidance", "flock_centering"] from by decide),
        if_pos (show ("collision_avoidance" : String) ∈ fullOrder from by
          decide)]
      rfl
  have hC : cohesionOf cfg ["collision_avoidance", "flock_centering"] pool b
      = cohesionOf { cfg with alignWeight := 0 } fullOrder pool b := by
    unfold cohesionOf
    rw [hnb]
    by_cases h1 : neighborsOf cfg pool b = []
    · rw [if_pos h1, if_pos h1]
    · rw [if_neg h1, if_neg h1,
        if_pos (show ("flock_centering" : String)
            ∈ ["collision_avoidance", "flock_centering"] from by decide),
        if_pos (show ("flock_centering" : String) ∈ fullOrder from by decide)]
      rfl
  unfold update_one new_velocity
  rw [accumulate_rules_count, accumulate_rules_count, hM1, hM2, hA, hC,
    show List.count "collision_avoidance"
        ["collision_avoidance", "flock_centering"] = 1 from by decide,
    show List.count "velocity_matching"
        ["collision_avoidance", "flock_centering"] = 0 from by decide,
    show List.count "flock_centering"
        ["collision_avoidance", "flock_centering"] = 1 from by decide,
    show List.count "collision_avoidance" fullOrder = 1 from by decide,
    show List.count "velocity_matching" fullOrder = 1 from by decide,
    show List.count "flock_centering" fullOrder = 1 from by decide]
  simp only [zero_nsmul, one_nsmul, add_zero, smul_zero]
  rfl

theorem update_one_erase_fc (cfg : Config) (pool : List Boid) (b : Boid) :
    update_one cfg (fullOrder.erase "flock_centering") pool b
      = update_one (zero_weight "flock_centering" cfg) fullOrder pool b := by
  have he : fullOrder.erase "flock_centering"
      = ["collision_avoidance", "velocity_matching"] := by decide
  have hzw : zero_weight "flock_centering" cfg
      = { cfg with cohWeight := 0 } := by
    unfold zero_weight
    rw [if_neg (by decide), if_neg (by decide), if_pos rfl]
  rw [he, hzw]
  have hnb : neighborsOf { cfg with cohWeight := 0 } pool b
      = neighborsOf cfg pool b := rfl
  have hC2 : cohesionOf { cfg with cohWeight := 0 } fullOrder pool b = 0 := by
    unfold cohesionOf
    rw [hnb]
    by_cases h1 : neighborsOf cfg pool b = []
    · rw [if_pos h1]
    · rw [if_neg h1,
        if_pos (show ("flock_centering" : String) ∈ fullOrder from by decide)]
      exact zero_smul _ _
  have hC1 : cohesionOf cfg ["collision_avoidance", "velocity_matching"]
      pool b = 0 := by
    unfold cohesionOf
    by_cases h1 : neighborsOf cfg pool b = []
    · rw [if_pos h1]
    · rw [if_neg h1,
        if_neg (show ¬ ("flock_centering" : String)
            ∈ ["collision_avoidance", "velocity_matching"] from by decide)]
  have hA : avoidOf cfg ["collision_avoidance", "velocity_matching"] pool b
      = avoidOf { cfg with cohWeight := 0 } fullOrder pool b := by
    unfold avoidOf
    rw [hnb]
    by_cases h1 : neighborsOf cfg pool b = []
    · rw [if_pos h1, if_pos h1]
    · rw [if_neg h1, if_neg h1,
        if_pos (show ("collision_avoidance" : String)
            ∈ ["collision_avoidance", "velocity_matching"] from by decide),
        if_pos (show ("collision_avoidance" : String) ∈ fullOrder from by
          decide)]
      rfl
  have hM : matchOf cfg ["collision_avoidance", "velocity_matching"] pool b
      = matchOf { cfg with cohWeight := 0 } fullOrder pool b := by
    unfold matchOf
    rw [hnb]
    by_cases h1 : neighborsOf cfg pool b = []
    · rw [if_pos h1, if_pos h1]
    · rw [if_neg h1, if_neg h1,
        if_pos (show ("velocity_matching" : String)
            ∈ ["collision_avoidance", "velocity_matching"] from by decide),
        if_pos (show ("velocity_matching" : String) ∈ fullOrder from by
          decide)]
      rfl
  unfold update_one new_velocity
  rw [accumulate_rules_count, accumulate_rules_count, hC1, hC2, hA, hM,
    show List.count "collision_avoidance"
        ["collision_avoidance", "velocity_matching"] = 1 from by decide,
    show List.count "velocity_matching"
        ["collision_avoidance", "velocity_matching"] = 1 from by decide,
    show List.count "flock_centering"
        ["collision_avoidance", "velocity_matching"] = 0 from by decide,
    show List.count "collision_avoidance" fullOrder = 1 from by decide,
    show List.count "velocity_matching" fullOrder = 1 from by decide,
    show List.count "flock_centering" fullOrder = 1 from by decide]
  simp only [zero_nsmul, one_nsmul, add_zero, smul_zero]
  rfl

/-- C1: after one call of update_boids with the configuration of boids.py,
    every agent of the resulting flock has velocity of Euclidean length at
    most MAX_SPEED; the final clamp (lines 97-99) enforces the bound after
    the rule forces and the wind force have been added. -/
theorem claim_C1 (ord : List String) (boids : List Boid) (b : Boid)
    (hb : b ∈ update_boids defaultConfig ord boids) :
    length b.velocity ≤ MAX_SPEED := by
  obtain ⟨pool, x, rfl⟩ := mem_update_go defaultConfig ord boids [] b hb
  rw [update_one_velocity]
  unfold new_velocity
  exact limit_speed_length_le _ _ (by rw [defaultConfig_maxSpeed]; norm_num)

/-- C3: the separation force of update_boids equals the separation weight
    0.05 times the sum, over exactly the neighbors strictly closer than
    VIEW_RADIUS / 2, of -(neighbor.position - boid.position); neighbors at or
    beyond that sub-radius contribute nothing, while alignment and cohesion
    average over the full neighbor list. -/
theorem claim_C3 (boid : Boid) (ns : List Boid) :
    avoidVector defaultConfig boid ns
      = (0.05 : ℝ) •
          ((ns.filter fun n =>
              decide (distance boid n < VIEW_RADIUS / 2)).map
            (fun n => -(n.position - boid.position))).sum ∧
    matchVelocity defaultConfig ns
      = (0.05 : ℝ) • sdiv ((ns.map fun n => n.velocity).sum) (ns.length : ℝ) ∧
    cohesionVector defaultConfig boid ns
      = (0.01 : ℝ) •
          (sdiv ((ns.map fun n => n.position).sum) (ns.length : ℝ)
            - boid.position) := by
  refine ⟨?_, ?_, ?_⟩
  · unfold avoidVector
    rw [foldl_cond_sub defaultConfig boid ns 0, zero_add]
    rfl
  · unfold matchVelocity
    have h := foldl_add_map (fun n : Boid => n.velocity) ns 0
    rw [h, zero_add]
    rfl
  · unfold cohesionVector
    have h := foldl_add_map (fun n : Boid => n.position) ns 0
    rw [h, zero_add]
    rfl

/-- C5: (1) update_boids gives identical results for any two rule orders that
    are permutations of the full order, for every configuration and every
    flock; (2) omitting one rule from the full order gives the same result as
    running the full order with the weight of that rule forced to zero. -/
theorem claim_C5 :
    (∀ (cfg : Config) (boids : List Boid) (ord1 ord2 : List String),
        ord1.Perm fullOrder → ord2.Perm fullOrder →
          update_boids cfg ord1 boids = update_boids cfg ord2 boids) ∧
    (∀ (cfg : Config) (boids : List Boid) (r : String), r ∈ fullOrder →
        update_boids cfg (fullOrder.erase r) boids
          = update_boids (zero_weight r cfg) fullOrder boids) := by
  constructor
  · intro cfg boids ord1 ord2 h1 h2
    exact update_go_congr cfg cfg ord1 ord2
      (update_one_perm cfg (h1.trans h2.symm)) boids []
  · intro cfg boids r hr
    have hr3 : r = "collision_avoidance" ∨ r = "velocity_matching"
        ∨ r = "flock_centering" := by
      simpa [fullOrder] using hr
    rcases hr3 with rfl | rfl | rfl
    · exact update_go_congr _ _ _ _ (update_one_erase_ca cfg) boids []
    · exact update_go_congr _ _ _ _ (update_one_erase_vm cfg) boids []
    · exact update_go_congr _ _ _ _ (update_one_erase_fc cfg) boids []

/-- Witness for C5: a transposed full order against the reference full order,
    and the separation rule erased against its weight forced to zero, on a
    concrete one-agent flock. -/
theorem claim_C5_witness :
    (["velocity_matching", "collision_avoidance", "flock_centering"]
        : List String).Perm fullOrder ∧
    fullOrder.Perm fullOrder ∧
    ("collision_avoidance" : String) ∈ fullOrder ∧
    update_boids defaultConfig
        ["velocity_matching", "collision_avoidance", "flock_centering"]
        [⟨(100, 100), (1, 0)⟩]
      = update_boids defaultConfig fullOrder [⟨(100, 100), (1, 0)⟩] ∧
    update_boids defaultConfig (fullOrder.erase "collision_avoidance")
        [⟨(100, 100), (1, 0)⟩]
      = update_boids (zero_weight "collision_avoidance" defaultConfig)
          fullOrder [⟨(100, 100), (1, 0)⟩] :=
  ⟨List.Perm.swap _ _ _, List.Perm.refl _, by decide,
    claim_C5.1 defaultConfig [⟨(100, 100), (1, 0)⟩] _ _
      (List.Perm.swap _ _ _) (List.Perm.refl _),
    claim_C5.2 defaultConfig [⟨(100, 100), (1, 0)⟩] "collision_avoidance"
      (by decide)⟩

/-- C6: the edge wrap of boids.py resets an x coordinate above WIDTH to 0 and
    an x coordinate below 0 to WIDTH, acts the same way independently on y
    with bound HEIGHT, and leaves in-range coordinates unchanged: a one-sided
    reset to the boundary value, not a proportional modulo wrap. -/
theorem claim_C6 (p : Vec2) :
    (p.1 > WIDTH → (edges defaultConfig p).1 = 0) ∧
    (p.1 < 0 → (edges defaultConfig p).1 = WIDTH) ∧
    (0 ≤ p.1 → p.1 ≤ WIDTH → (edges defaultConfig p).1 = p.1) ∧
    (p.2 > HEIGHT → (edges defaultConfig p).2 = 0) ∧
    (p.2 < 0 → (edges defaultConfig p).2 = HEIGHT) ∧
    (0 ≤ p.2 → p.2 ≤ HEIGHT → (edges defaultConfig p).2 = p.2) := by
  have hw : (0 : ℝ) ≤ WIDTH := by unfold WIDTH; norm_num
  have hh : (0 : ℝ) ≤ HEIGHT := by unfold HEIGHT; norm_num
  refine ⟨?_, ?_, ?_, ?_, ?_, ?_⟩
  · intro h
    show (if p.1 > defaultConfig.width then 0
      else if p.1 < 0 then defaultConfig.width else p.1) = 0
    rw [if_pos (show p.1 > defaultConfig.width from h)]
  · intro h
    show (if p.1 > defaultConfig.width then 0
      else if p.1 < 0 then defaultConfig.width else p.1) = WIDTH
    rw [if_neg (show ¬ p.1 > defaultConfig.width from
        not_lt.mpr (le_trans h.le hw)), if_pos h]
    rfl
  · intro h1 h2
    show (if p.1 > defaultConfig.width then 0
      else if p.1 < 0 then defaultConfig.width else p.1) = p.1
    rw [if_neg (show ¬ p.1 > defaultConfig.width from not_lt.mpr h2),
      if_neg (not_lt.mpr h1)]
  · intro h
    show (if p.2 > defaultConfig.height then 0
      else if p.2 < 0 then defaultConfig.height else p.2) = 0
    rw [if_pos (show p.2 > defaultConfig.height from h)]
  · intro h
    show (if p.2 > defaultConfig.height then 0
      else if p.2 < 0 then defaultConfig.height else p.2) = HEIGHT
    rw [if_neg (show ¬ p.2 > defaultConfig.height from
        not_lt.mpr (le_trans h.le hh)), if_pos h]
    rfl
  · intro h1 h2
    show (if p.2 > defaultConfig.height then 0
      else if p.2 < 0 then defaultConfig.height else p.2) = p.2
    rw [if_neg (show ¬ p.2 > defaultConfig.height from not_lt.mpr h2),
      if_neg (not_lt.mpr h1)]

/-- Witness for C6: the point just past the right edge and below the bottom
    edge is relocated to x = 0 and y = HEIGHT. -/
theorem claim_C6_witness :
    (801 : ℝ) > WIDTH ∧ (-5 : ℝ) < 0 ∧
    (edges defaultConfig (((801 : ℝ), (-5 : ℝ)) : Vec2)).1 = 0 ∧
    (edges defaultConfig (((801 : ℝ), (-5 : ℝ)) : Vec2)).2 = HEIGHT :=
  ⟨by unfold WIDTH; norm_num, by norm_num,
    (claim_C6 (((801 : ℝ), (-5 : ℝ)) : Vec2)).1
      (by unfold WIDTH; norm_num),
    (claim_C6 (((801 : ℝ), (-5 : ℝ)) : Vec2)).2.2.2.2.1 (by norm_num)⟩

/-- C7 amended: after one call of update_boids with the configuration of
    boids.py every agent position lies in the closed box
    [0, WIDTH] x [0, HEIGHT]. The half-open box of the original claim fails:
    see the counterexample theorem, where the wrap writes WIDTH itself. -/
theorem claim_C7 (ord : List String) (boids : List Boid) (b : Boid)
    (hb : b ∈ update_boids defaultConfig ord boids) :
    0 ≤ b.position.1 ∧ b.position.1 ≤ WIDTH ∧
      0 ≤ b.position.2 ∧ b.position.2 ≤ HEIGHT := by
  obtain ⟨pool, x, rfl⟩ := mem_update_go defaultConfig ord boids [] b hb
  rw [update_one_position]
  exact edges_box defaultConfig (by rw [defaultConfig_width]; norm_num)
    (by rw [defaultConfig_height]; norm_num) _

/-- C9: the speed clamp rescales a too-fast velocity to length exactly the
    maximum speed by a positive scalar factor (preserving direction), is the
    identity otherwise, and on the zero vector is a no-op that performs no
    division (the guard 0 > maxSpeed is false), so no undefined value enters
    the state. -/
theorem claim_C9 (m : ℝ) (v : Vec2) (hm : 0 < m) :
    (length v > m →
        limit_speed m v = (m / length v) • v ∧
        length (limit_speed m v) = m ∧
        0 < m / length v) ∧
    (length v ≤ m → limit_speed m v = v) ∧
    limit_speed m (((0 : ℝ), (0 : ℝ)) : Vec2) = (((0 : ℝ), (0 : ℝ)) : Vec2) := by
  refine ⟨?_, fun h => limit_speed_of_le h, ?_⟩
  · intro h
    have hv : 0 < length v := lt_trans hm h
    have he : limit_speed m v = (m / length v) • v := by
      unfold limit_speed scale_to_length
      rw [if_pos h]
    refine ⟨he, ?_, div_pos hm hv⟩
    rw [he, length_smul, abs_of_nonneg (div_nonneg hm.le hv.le),
      div_mul_cancel₀ _ (ne_of_gt hv)]
  · apply limit_speed_of_le
    have h0 : length (((0 : ℝ), (0 : ℝ)) : Vec2) = 0 := by
      unfold length
      norm_num
    rw [h0]
    exact hm.le

/-- Witness for C9 at maximum speed 4 and velocity (3, 4) of length 5. -/
theorem claim_C9_witness :
    (0 : ℝ) < 4 ∧
    ((length (((3 : ℝ), (4 : ℝ)) : Vec2) > 4 →
        limit_speed 4 (((3 : ℝ), (4 : ℝ)) : Vec2)
            = ((4 : ℝ) / length (((3 : ℝ), (4 : ℝ)) : Vec2))
                • (((3 : ℝ), (4 : ℝ)) : Vec2) ∧
        length (limit_speed 4 (((3 : ℝ), (4 : ℝ)) : Vec2)) = 4 ∧
        0 < (4 : ℝ) / length (((3 : ℝ), (4 : ℝ)) : Vec2)) ∧
      (length (((3 : ℝ), (4 : ℝ)) : Vec2) ≤ 4 →
        limit_speed 4 (((3 : ℝ), (4 : ℝ)) : Vec2) = ((3 : ℝ), (4 : ℝ))) ∧
      limit_speed 4 (((0 : ℝ), (0 : ℝ)) : Vec2) = (((0 : ℝ), (0 : ℝ)) : Vec2)) :=
  ⟨by norm_num, claim_C9 4 (((3 : ℝ), (4 : ℝ)) : Vec2) (by norm_num)⟩

/-- C10: per agent the step computes each force once and adds it to the
    velocity once per occurrence of the rule identifier in the rule order, so
    duplicated identifiers multiply the effective weight of the rule instead
    of being rejected; identifiers outside the known three contribute
    nothing. -/
theorem claim_C10 (cfg : Config) (ord : List String) (pool : List Boid)
    (b : Boid) :
    (update_one cfg ord pool b).velocity =
      limit_speed cfg.maxSpeed
        (b.velocity
          + (List.count "collision_avoidance" ord) • avoidOf cfg ord pool b
          + (List.count "velocity_matching" ord) • matchOf cfg ord pool b
          + (List.count "flock_centering" ord) • cohesionOf cfg ord pool b
          + cfg.windForce) := by
  rw [update_one_velocity]
  unfold new_velocity
  rw [accumulate_rules_count]

/-- C8 amended: update_boids performs no validation of the rule order and
    never fails: unknown identifiers are ignored (filtering the order down to
    the known identifiers yields the same result), every agent is always
    updated (the output flock has the length of the input), and duplicated
    identifiers are not rejected either; the companion counterexample shows
    agent state is still mutated under a duplicated order. -/
theorem claim_C8 (cfg : Config) (ord : List String) (boids : List Boid) :
    update_boids cfg ord boids
      = update_boids cfg (ord.filter fun r => decide (r ∈ fullOrder)) boids ∧
    (update_boids cfg ord boids).length = boids.length := by
  constructor
  · exact update_go_congr cfg cfg ord _ (update_one_filter cfg ord) boids []
  · exact update_go_length cfg ord boids []

theorem arg_toC_pos_real {x : ℝ} (hx : 0 ≤ x) :
    Complex.arg (toC ((x, 0) : Vec2)) = 0 := by
  have h : toC ((x, 0) : Vec2) = ((x : ℝ) : ℂ) := by
    apply Complex.ext <;> simp [toC]
  rw [h, Complex.arg_ofReal_of_nonneg hx]

theorem arg_toC_neg_real {x : ℝ} (hx : x < 0) :
    Complex.arg (toC ((x, 0) : Vec2)) = Real.pi := by
  have h : toC ((x, 0) : Vec2) = ((x : ℝ) : ℂ) := by
    apply Complex.ext <;> simp [toC]
  rw [h, Complex.arg_ofReal_of_neg hx]

theorem arg_toC_neg_imag {y : ℝ} (hy : y < 0) :
    Complex.arg (toC ((0, y) : Vec2)) = -(Real.pi / 2) := by
  have h : toC ((0, y) : Vec2) = ((-y : ℝ) : ℂ) * (-Complex.I) := by
    apply Complex.ext <;>
      simp [toC, Complex.mul_re, Complex.mul_im]
  rw [h, Complex.arg_real_mul (-Complex.I) (by linarith : (0 : ℝ) < -y),
    Complex.arg_neg_I]

theorem abs_arg_toC_lt_half_pi (w : Vec2) (hw : 0 < w.1) :
    |Complex.arg (toC w)| < Real.pi / 2 :=
  Complex.abs_arg_lt_pi_div_two_iff.mpr (Or.inl hw)

theorem within_fov_default_iff (b1 b2 : Boid) :
    within_fov defaultConfig b1 b2 ↔
      |angle_to b1.velocity (b2.position - b1.position)| ≤ 135 := by
  unfold within_fov
  rw [if_neg (show ¬ defaultConfig.fovAngle = -1 from by
      rw [defaultConfig_fovAngle]; norm_num), defaultConfig_fovAngle]
  norm_num

theorem within_fov_of_front (b1 b2 : Boid)
    (hv : Complex.arg (toC b1.velocity) = 0)
    (hw : 0 < (b2.position - b1.position).1) :
    within_fov defaultConfig b1 b2 := by
  rw [within_fov_default_iff]
  unfold angle_to
  rw [hv, sub_zero]
  have h := abs_arg_toC_lt_half_pi (b2.position - b1.position) hw
  have hpi : 0 < Real.pi := Real.pi_pos
  have habs : |Complex.arg (toC (b2.position - b1.position)) * 180 / Real.pi|
      = |Complex.arg (toC (b2.position - b1.position))| * 180 / Real.pi := by
    rw [abs_div, abs_mul, abs_of_nonneg (by norm_num : (0 : ℝ) ≤ 180),
      abs_of_pos hpi]
  rw [habs, div_le_iff₀ hpi]
  nlinarith

theorem not_within_fov_back (b1 b2 : Boid)
    (hv : Complex.arg (toC b1.velocity) = 0)
    (hw : Complex.arg (toC (b2.position - b1.position)) = Real.pi) :
    ¬ within_fov defaultConfig b1 b2 := by
  rw [within_fov_default_iff]
  unfold angle_to
  rw [hv, hw, sub_zero, mul_comm, mul_div_assoc,
    div_self Real.pi_ne_zero, mul_one,
    abs_of_nonneg (by norm_num : (0 : ℝ) ≤ 180)]
  norm_num

/-- Concrete scenario for the snapshot comparison: agent bA heads away from
    bB, so bA sees nobody (bB sits exactly behind it), while bB sees bA in
    front. -/
def bA : Boid := ⟨(100, 100), (1, 0)⟩

/-- Second agent of the snapshot scenario, 10 units to the left of bA and
    heading toward it. -/
def bB : Boid := ⟨(90, 100), (1, 0)⟩

/-- State of bA after one update against the pre-tick pool. -/
def bA2 : Boid := ⟨(101.1, 100.05), (1.1, 0.05)⟩

/-- State of bB after one sequential update, reading the updated bA2. -/
def bBseq : Boid := ⟨(91.211, 100.0505), (1.211, 0.0505)⟩

/-- State of bB after one snapshot update, reading the pre-tick bA. -/
def bBsnap : Boid := ⟨(91.2, 100.05), (1.2, 0.05)⟩

theorem offs_bA_bB : bB.position - bA.position = (((-10 : ℝ), (0 : ℝ)) : Vec2) := by
  show (((90 : ℝ), (100 : ℝ)) : Vec2) - ((100 : ℝ), (100 : ℝ)) = _
  rw [Prod.mk_sub_mk]
  norm_num

theorem nb_bA : neighborsOf defaultConfig [bB] bA = [] := by
  have hv : Complex.arg (toC bA.velocity) = 0 := by
    show Complex.arg (toC (((1 : ℝ), (0 : ℝ)) : Vec2)) = 0
    exact arg_toC_pos_real (by norm_num)
  have hw : Complex.arg (toC (bB.position - bA.position)) = Real.pi := by
    rw [offs_bA_bB]
    exact arg_toC_neg_real (by norm_num)
  have hfov := not_within_fov_back bA bB hv hw
  have hcond : ¬ (decide (distance bA bB < defaultConfig.viewRadius
      ∧ within_fov defaultConfig bA bB) = true) := by
    simp only [decide_eq_true_eq]
    intro hc
    exact hfov hc.2
  unfold neighborsOf
  rw [List.filter_cons, if_neg hcond, List.filter_nil]

theorem evalA : update_one defaultConfig ["flock_centering"] [bB] bA = bA2 := by
  rw [update_one_no_neighbors _ _ _ _ nb_bA]
  have hv : bA.velocity + defaultConfig.windForce
      = (((1.1 : ℝ), (0.05 : ℝ)) : Vec2) := by
    show (((1 : ℝ), (0 : ℝ)) : Vec2) + ((0.1 : ℝ), (0.05 : ℝ)) = _
    rw [Prod.mk_add_mk]
    norm_num
  have hlim : limit_speed defaultConfig.maxSpeed
      (((1.1 : ℝ), (0.05 : ℝ)) : Vec2) = (((1.1 : ℝ), (0.05 : ℝ)) : Vec2) :=
    limit_speed_of_le (length_le _ _
      (by rw [defaultConfig_maxSpeed]; norm_num)
      (by rw [defaultConfig_maxSpeed]; norm_num))
  have hpos : bA.position + (((1.1 : ℝ), (0.05 : ℝ)) : Vec2)
      = (((101.1 : ℝ), (100.05 : ℝ)) : Vec2) := by
    show (((100 : ℝ), (100 : ℝ)) : Vec2) + _ = _
    rw [Prod.mk_add_mk]
    norm_num
  have hedge : edges defaultConfig (((101.1 : ℝ), (100.05 : ℝ)) : Vec2)
      = (((101.1 : ℝ), (100.05 : ℝ)) : Vec2) :=
    edges_of_mem_box _ _ (by norm_num) (by norm_num) (by norm_num)
      (by norm_num)
  rw [hv, hlim, hpos, hedge]
  rfl

theorem offs_bB_bA2 : bA2.position - bB.position
    = (((11.1 : ℝ), (0.05 : ℝ)) : Vec2) := by
  show (((101.1 : ℝ), (100.05 : ℝ)) : Vec2) - ((90 : ℝ), (100 : ℝ)) = _
  rw [Prod.mk_sub_mk]
  norm_num

theorem nb_bB_seq : neighborsOf defaultConfig [bA2] bB = [bA2] := by
  have hdist : distance bB bA2 < defaultConfig.viewRadius := by
    unfold distance
    rw [offs_bB_bA2]
    exact length_lt _ _ (by rw [defaultConfig_viewRadius]; norm_num)
      (by rw [defaultConfig_viewRadius]; norm_num)
  have hv : Complex.arg (toC bB.velocity) = 0 := by
    show Complex.arg (toC (((1 : ℝ), (0 : ℝ)) : Vec2)) = 0
    exact arg_toC_pos_real (by norm_num)
  have hfov : within_fov defaultConfig bB bA2 :=
    within_fov_of_front bB bA2 hv (by rw [offs_bB_bA2]; norm_num)
  unfold neighborsOf
  rw [List.filter_cons, if_pos (decide_eq_true ⟨hdist, hfov⟩),
    List.filter_nil]

theorem evalB_seq : update_one defaultConfig ["flock_centering"] [bA2] bB
    = bBseq := by
  rw [update_one_fc _ _ _ nb_bB_seq, offs_bB_bA2]
  have hsm : defaultConfig.cohWeight • (((11.1 : ℝ), (0.05 : ℝ)) : Vec2)
      = (((0.111 : ℝ), (0.0005 : ℝ)) : Vec2) := by
    rw [defaultConfig_cohWeight, Prod.smul_mk, smul_eq_mul, smul_eq_mul]
    norm_num
  have hv : bB.velocity + (((0.111 : ℝ), (0.0005 : ℝ)) : Vec2)
        + defaultConfig.windForce
      = (((1.211 : ℝ), (0.0505 : ℝ)) : Vec2) := by
    show (((1 : ℝ), (0 : ℝ)) : Vec2) + ((0.111 : ℝ), (0.0005 : ℝ))
        + ((0.1 : ℝ), (0.05 : ℝ)) = _
    rw [Prod.mk_add_mk, Prod.mk_add_mk]
    norm_num
  have hlim : limit_speed defaultConfig.maxSpeed
      (((1.211 : ℝ), (0.0505 : ℝ)) : Vec2)
      = (((1.211 : ℝ), (0.0505 : ℝ)) : Vec2) :=
    limit_speed_of_le (length_le _ _
      (by rw [defaultConfig_maxSpeed]; norm_num)
      (by rw [defaultConfig_maxSpeed]; norm_num))
  have hpos : bB.position + (((1.211 : ℝ), (0.0505 : ℝ)) : Vec2)
      = (((91.211 : ℝ), (100.0505 : ℝ)) : Vec2) := by
    show (((90 : ℝ), (100 : ℝ)) : Vec2) + _ = _
    rw [Prod.mk_add_mk]
    norm_num
  have hedge : edges defaultConfig (((91.211 : ℝ), (100.0505 : ℝ)) : Vec2)
      = (((91.211 : ℝ), (100.0505 : ℝ)) : Vec2) :=
    edges_of_mem_box _ _ (by norm_num) (by norm_num) (by norm_num)
      (by norm_num)
  rw [hsm, hv, hlim, hpos, hedge]
  rfl

theorem offs_bB_bA : bA.position - bB.position
    = (((10 : ℝ), (0 : ℝ)) : Vec2) := by
  show (((100 : ℝ), (100 : ℝ)) : Vec2) - ((90 : ℝ), (100 : ℝ)) = _
  rw [Prod.mk_sub_mk]
  norm_num

theorem nb_bB_snap : neighborsOf defaultConfig [bA] bB = [bA] := by
  have hdist : distance bB bA < defaultConfig.viewRadius := by
    unfold distance
    rw [offs_bB_bA]
    exact length_lt _ _ (by rw [defaultConfig_viewRadius]; norm_num)
      (by rw [defaultConfig_viewRadius]; norm_num)
  have hv : Complex.arg (toC bB.velocity) = 0 := by
    show Complex.arg (toC (((1 : ℝ), (0 : ℝ)) : Vec2)) = 0
    exact arg_toC_pos_real (by norm_num)
  have hfov : within_fov defaultConfig bB bA :=
    within_fov_of_front bB bA hv (by rw [offs_bB_bA]; norm_num)
  unfold neighborsOf
  rw [List.filter_cons, if_pos (decide_eq_true ⟨hdist, hfov⟩),
    List.filter_nil]

theorem evalB_snap : update_one defaultConfig ["flock_centering"] [bA] bB
    = bBsnap := by
  rw [update_one_fc _ _ _ nb_bB_snap, offs_bB_bA]
  have hsm : defaultConfig.cohWeight • (((10 : ℝ), (0 : ℝ)) : Vec2)
      = (((0.1 : ℝ), (0 : ℝ)) : Vec2) := by
    rw [defaultConfig_cohWeight, Prod.smul_mk, smul_eq_mul, smul_eq_mul]
    norm_num
  have hv : bB.velocity + (((0.1 : ℝ), (0 : ℝ)) : Vec2)
        + defaultConfig.windForce
      = (((1.2 : ℝ), (0.05 : ℝ)) : Vec2) := by
    show (((1 : ℝ), (0 : ℝ)) : Vec2) + ((0.1 : ℝ), (0 : ℝ))
        + ((0.1 : ℝ), (0.05 : ℝ)) = _
    rw [Prod.mk_add_mk, Prod.mk_add_mk]
    norm_num
  have hlim : limit_speed defaultConfig.maxSpeed
      (((1.2 : ℝ), (0.05 : ℝ)) : Vec2) = (((1.2 : ℝ), (0.05 : ℝ)) : Vec2) :=
    limit_speed_of_le (length_le _ _
      (by rw [defaultConfig_maxSpeed]; norm_num)
      (by rw [defaultConfig_maxSpeed]; norm_num))
  have hpos : bB.position + (((1.2 : ℝ), (0.05 : ℝ)) : Vec2)
      = (((91.2 : ℝ), (100.05 : ℝ)) : Vec2) := by
    show (((90 : ℝ), (100 : ℝ)) : Vec2) + _ = _
    rw [Prod.mk_add_mk]
    norm_num
  have hedge : edges defaultConfig (((91.2 : ℝ), (100.05 : ℝ)) : Vec2)
      = (((91.2 : ℝ), (100.05 : ℝ)) : Vec2) :=
    edges_of_mem_box _ _ (by norm_num) (by norm_num) (by norm_num)
      (by norm_num)
  rw [hsm, hv, hlim, hpos, hedge]
  rfl

theorem seq_eval : update_boids defaultConfig ["flock_centering"] [bA, bB]
    = [bA2, bBseq] := by
  unfold update_boids
  simp only [update_go, List.nil_append, List.append_nil]
  rw [evalA, evalB_seq]

theorem snap_eval :
    update_boids_snapshot defaultConfig ["flock_centering"] [bA, bB]
      = [bA2, bBsnap] := by
  unfold update_boids_snapshot
  simp only [snapshot_go, List.nil_append, List.append_nil]
  rw [evalA, evalB_snap]

/-- C2 (failing input): on the two-agent flock of bA and bB with rule order
    flock_centering, the sequential in-place update of update_boids and the
    snapshot semantics the specification mandates disagree: the second agent
    reads the first agent in its already-updated state, so its cohesion force
    and hence its final velocity and position differ from the snapshot
    result. -/
theorem claim_C2 :
    update_boids defaultConfig ["flock_centering"] [bA, bB]
      ≠ update_boids_snapshot defaultConfig ["flock_centering"] [bA, bB] := by
  rw [seq_eval, snap_eval]
  intro h
  have h1 : bBseq = bBsnap := by
    injection h with _ h2
    injection h2 with h3 _
  have h4 : bBseq.velocity.2 = bBsnap.velocity.2 := by rw [h1]
  have h5 : (0.0505 : ℝ) = 0.05 := h4
  norm_num at h5

/-- Agent for the field-of-view check, heading along the negative x axis. -/
def aF : Boid := ⟨(100, 100), (-1, 0)⟩

/-- Agent 10 units below aF, at normalized bearing 90 degrees from the
    heading of aF. -/
def bF : Boid := ⟨(100, 90), (0, 0)⟩

theorem offs_aF_bF : bF.position - aF.position
    = (((0 : ℝ), (-10 : ℝ)) : Vec2) := by
  show (((100 : ℝ), (90 : ℝ)) : Vec2) - ((100 : ℝ), (100 : ℝ)) = _
  rw [Prod.mk_sub_mk]
  norm_num

theorem dist_aF_bF : distance aF bF < VIEW_RADIUS := by
  unfold distance
  rw [offs_aF_bF]
  exact length_lt _ _ (by unfold VIEW_RADIUS; norm_num)
    (by unfold VIEW_RADIUS; norm_num)

theorem angle_to_aF_bF :
    angle_to aF.velocity (bF.position - aF.position) = -270 := by
  unfold angle_to
  have hv : Complex.arg (toC aF.velocity) = Real.pi := by
    show Complex.arg (toC (((-1 : ℝ), (0 : ℝ)) : Vec2)) = _
    exact arg_toC_neg_real (by norm_num)
  have hw : Complex.arg (toC (bF.position - aF.position))
      = -(Real.pi / 2) := by
    rw [offs_aF_bF]
    exact arg_toC_neg_imag (by norm_num)
  rw [hv, hw]
  have hpi : Real.pi ≠ 0 := Real.pi_ne_zero
  field_simp
  ring

theorem not_fov_aF_bF : ¬ within_fov defaultConfig aF bF := by
  rw [within_fov_default_iff, angle_to_aF_bF,
    abs_of_nonpos (by norm_num : (-270 : ℝ) ≤ 0)]
  norm_num

theorem angle_between_aF_bF :
    angle_between aF.velocity (bF.position - aF.position) = 90 := by
  unfold angle_between
  have hprod : toC (bF.position - aF.position) * star (toC aF.velocity)
      = ((10 : ℝ) : ℂ) * Complex.I := by
    rw [offs_aF_bF]
    show toC (((0 : ℝ), (-10 : ℝ)) : Vec2)
        * star (toC (((-1 : ℝ), (0 : ℝ)) : Vec2)) = _
    apply Complex.ext <;>
      simp [toC, Complex.mul_re, Complex.mul_im]
  rw [hprod, Complex.arg_real_mul Complex.I (by norm_num : (0 : ℝ) < 10),
    Complex.arg_I]
  have hpi : Real.pi ≠ 0 := Real.pi_ne_zero
  field_simp
  ring

theorem nb_aF : neighborsOf defaultConfig [bF] aF = [] := by
  have hcond : ¬ (decide (distance aF bF < defaultConfig.viewRadius
      ∧ within_fov defaultConfig aF bF) = true) := by
    simp only [decide_eq_true_eq]
    intro hc
    exact not_fov_aF_bF hc.2
  unfold neighborsOf
  rw [List.filter_cons, if_neg hcond, List.filter_nil]

theorem nb_aF_omni :
    neighborsOf { defaultConfig with fovAngle := -1 } [bF] aF = [bF] := by
  have hfov : within_fov { defaultConfig with fovAngle := -1 } aF bF := by
    unfold within_fov
    rw [if_pos (show ({ defaultConfig with fovAngle := -1 }
        : Config).fovAngle = -1 from rfl)]
    trivial
  have hdist : distance aF bF
      < ({ defaultConfig with fovAngle := -1 } : Config).viewRadius :=
    dist_aF_bF
  unfold neighborsOf
  rw [List.filter_cons, if_pos (decide_eq_true ⟨hdist, hfov⟩),
    List.filter_nil]

/-- C4 (failing input): agent bF is strictly inside the view radius of aF
    and the normalized signed angle between the heading of aF and the
    direction toward bF is 90 degrees, within the inclusive 135 degree
    half-angle of the 270 degree field of view, so by the claim bF should be
    a neighbor of aF; but within_fov of boids.py evaluates the unnormalized
    pygame angle_to difference -270 and rejects it, so the neighbor set of
    aF is empty. With the omnidirectional sentinel -1 the test is
    unconditionally true and bF is a neighbor, as the claim states. -/
theorem claim_C4 :
    distance aF bF < VIEW_RADIUS ∧
    |angle_between aF.velocity (bF.position - aF.position)|
        ≤ FOV_ANGLE / 2 ∧
    ¬ within_fov defaultConfig aF bF ∧
    neighborsOf defaultConfig [bF] aF = [] ∧
    neighborsOf { defaultConfig with fovAngle := -1 } [bF] aF = [bF] := by
  refine ⟨dist_aF_bF, ?_, not_fov_aF_bF, nb_aF, nb_aF_omni⟩
  rw [angle_between_aF_bF, abs_of_nonneg (by norm_num : (0 : ℝ) ≤ 90)]
  unfold FOV_ANGLE
  norm_num

theorem example_step :
    update_boids defaultConfig ["collision_avoidance"] [⟨(100, 100), (0, 0)⟩]
      = [⟨(100.1, 100.05), (0.1, 0.05)⟩] := by
  rw [update_boids_single]
  have hv : (Boid.mk (100, 100) (0, 0)).velocity + defaultConfig.windForce
      = (((0.1 : ℝ), (0.05 : ℝ)) : Vec2) := by
    show (((0 : ℝ), (0 : ℝ)) : Vec2) + ((0.1 : ℝ), (0.05 : ℝ)) = _
    rw [Prod.mk_add_mk]
    norm_num
  have hlim : limit_speed defaultConfig.maxSpeed
      (((0.1 : ℝ), (0.05 : ℝ)) : Vec2) = (((0.1 : ℝ), (0.05 : ℝ)) : Vec2) :=
    limit_speed_of_le (length_le _ _
      (by rw [defaultConfig_maxSpeed]; norm_num)
      (by rw [defaultConfig_maxSpeed]; norm_num))
  have hpos : (Boid.mk (100, 100) (0, 0)).position
        + (((0.1 : ℝ), (0.05 : ℝ)) : Vec2)
      = (((100.1 : ℝ), (100.05 : ℝ)) : Vec2) := by
    show (((100 : ℝ), (100 : ℝ)) : Vec2) + _ = _
    rw [Prod.mk_add_mk]
    norm_num
  have hedge : edges defaultConfig (((100.1 : ℝ), (100.05 : ℝ)) : Vec2)
      = (((100.1 : ℝ), (100.05 : ℝ)) : Vec2) :=
    edges_of_mem_box _ _ (by norm_num) (by norm_num) (by norm_num)
      (by norm_num)
  rw [hv, hlim, hpos, hedge]

/-- Witness for C1: the concrete one-agent flock, updated once; the agent of
    the result flock satisfies the speed bound. -/
theorem claim_C1_witness :
    (⟨(100.1, 100.05), (0.1, 0.05)⟩ : Boid) ∈
        update_boids defaultConfig ["collision_avoidance"]
          [⟨(100, 100), (0, 0)⟩] ∧
      length ((⟨(100.1, 100.05), (0.1, 0.05)⟩ : Boid)).velocity
        ≤ MAX_SPEED := by
  have hmem : (⟨(100.1, 100.05), (0.1, 0.05)⟩ : Boid) ∈
      update_boids defaultConfig ["collision_avoidance"]
        [⟨(100, 100), (0, 0)⟩] := by
    rw [example_step]
    exact List.mem_singleton.mpr rfl
  exact ⟨hmem, claim_C1 _ _ _ hmem⟩

/-- Witness for C7: the same concrete one-agent flock; the resulting position
    lies inside the closed box. -/
theorem claim_C7_witness :
    (⟨(100.1, 100.05), (0.1, 0.05)⟩ : Boid) ∈
        update_boids defaultConfig ["collision_avoidance"]
          [⟨(100, 100), (0, 0)⟩] ∧
      (0 ≤ ((⟨(100.1, 100.05), (0.1, 0.05)⟩ : Boid)).position.1 ∧
        ((⟨(100.1, 100.05), (0.1, 0.05)⟩ : Boid)).position.1 ≤ WIDTH ∧
        0 ≤ ((⟨(100.1, 100.05), (0.1, 0.05)⟩ : Boid)).position.2 ∧
        ((⟨(100.1, 100.05), (0.1, 0.05)⟩ : Boid)).position.2 ≤ HEIGHT) := by
  have hmem : (⟨(100.1, 100.05), (0.1, 0.05)⟩ : Boid) ∈
      update_boids defaultConfig ["collision_avoidance"]
        [⟨(100, 100), (0, 0)⟩] := by
    rw [example_step]
    exact List.mem_singleton.mpr rfl
  exact ⟨hmem, claim_C7 _ _ _ hmem⟩

/-- C7 counterexample: one update_boids step started at position (0, 300)
    with velocity (-2, 0) crosses the left edge and is reset to x = WIDTH
    exactly, so the resulting x coordinate is not strictly below WIDTH and
    the half-open box claim fails. -/
theorem claim_C7_counterexample :
    ¬ ((update_boids defaultConfig fullOrder
        [⟨(0, 300), (-2, 0)⟩]).headI.position.1 < WIDTH) := by
  rw [update_boids_single]
  have hv : (Boid.mk (0, 300) (-2, 0)).velocity + defaultConfig.windForce
      = (((-1.9 : ℝ), (0.05 : ℝ)) : Vec2) := by
    show (((-2 : ℝ), (0 : ℝ)) : Vec2) + ((0.1 : ℝ), (0.05 : ℝ)) = _
    rw [Prod.mk_add_mk]
    norm_num
  have hlim : limit_speed defaultConfig.maxSpeed
      (((-1.9 : ℝ), (0.05 : ℝ)) : Vec2) = (((-1.9 : ℝ), (0.05 : ℝ)) : Vec2) :=
    limit_speed_of_le (length_le _ _
      (by rw [defaultConfig_maxSpeed]; norm_num)
      (by rw [defaultConfig_maxSpeed]; norm_num))
  have hpos : (Boid.mk (0, 300) (-2, 0)).position
        + (((-1.9 : ℝ), (0.05 : ℝ)) : Vec2)
      = (((-1.9 : ℝ), (300.05 : ℝ)) : Vec2) := by
    show (((0 : ℝ), (300 : ℝ)) : Vec2) + _ = _
    rw [Prod.mk_add_mk]
    norm_num
  have hedge : edges defaultConfig (((-1.9 : ℝ), (300.05 : ℝ)) : Vec2)
      = (((800 : ℝ), (300.05 : ℝ)) : Vec2) := by
    unfold edges
    rw [if_neg (by norm_num), if_pos (by norm_num : ((-1.9 : ℝ),
        (300.05 : ℝ)).1 < 0), if_neg (by norm_num), if_neg (by norm_num)]
    rw [defaultConfig_width]
  rw [hv, hlim, hpos, hedge]
  show ¬ ((800 : ℝ) < WIDTH)
  unfold WIDTH
  norm_num

/-- C8 counterexample: the rule order with a duplicated identifier is not
    rejected by update_boids; the agent state is still advanced (its velocity
    becomes the wind force instead of staying zero), so the prior-tick state
    is not preserved as the claim requires. -/
theorem claim_C8_counterexample :
    (update_boids defaultConfig ["velocity_matching", "velocity_matching"]
        [⟨(100, 100), (0, 0)⟩]).headI.velocity
      ≠ (((0 : ℝ), (0 : ℝ)) : Vec2) := by
  rw [update_boids_single]
  have hv : (Boid.mk (100, 100) (0, 0)).velocity + defaultConfig.windForce
      = (((0.1 : ℝ), (0.05 : ℝ)) : Vec2) := by
    show (((0 : ℝ), (0 : ℝ)) : Vec2) + ((0.1 : ℝ), (0.05 : ℝ)) = _
    rw [Prod.mk_add_mk]
    norm_num
  have hlim : limit_speed defaultConfig.maxSpeed
      (((0.1 : ℝ), (0.05 : ℝ)) : Vec2) = (((0.1 : ℝ), (0.05 : ℝ)) : Vec2) :=
    limit_speed_of_le (length_le _ _
      (by rw [defaultConfig_maxSpeed]; norm_num)
      (by rw [defaultConfig_maxSpeed]; norm_num))
  rw [hv, hlim]
  show (((0.1 : ℝ), (0.05 : ℝ)) : Vec2) ≠ ((0 : ℝ), (0 : ℝ))
  intro h
  have h1 : (0.1 : ℝ) = 0 := congrArg Prod.fst h
  norm_num at h1

end

end Boids

